import Mathlib

/-!
Verification development for the `botbot` web-app client
(`src/web_app/ux-improvements.js` and `src/web_app/service-worker.js`).

The JavaScript is embedded shallowly: DOM elements become explicit record
states, the IndexedDB pending store becomes an association list of
`(id, payload)` pairs, the Cache Storage becomes an association list of
named caches, and the event handlers become pure state-transition
functions.  Platform behaviour the code relies on (HTML constraint
validation for a `pattern` attribute, atomicity of `Cache.addAll`, the
service-worker lifecycle in which a failed install never activates) is
embedded as part of the corresponding transition function and documented
at each definition.
-/

namespace UX

/-- Strip every non-digit character — the regex replace of `\D` by the
empty string (ux-improvements.js:44, 58). -/
def stripNonDigits (s : String) : String :=
  String.mk (s.data.filter Char.isDigit)

/-- Length of the leading run of digit characters of a list. -/
def digitRunLen : List Char → Nat
  | [] => 0
  | c :: cs => if c.isDigit then digitRunLen cs + 1 else 0

/-- JavaScript regex word character (`\w` = `[A-Za-z0-9_]`), used by the
`\B` assertion in `formatNumberWithSpaces`. -/
def isWordChar (c : Char) : Bool :=
  c.isAlphanum || c == '_'

/-- Core of `value.replace(/\B(?=(\d{3})+(?!\d))/g, ' ')`
(ux-improvements.js:53).  A space is inserted before a character exactly
when the position is a non-boundary (`\B`: the previous character is a
word character, as is the current one — implied because the lookahead
forces a digit here) and the digit run starting at the position has
positive length divisible by three (`(?=(\d{3})+(?!\d))`, the run being
maximal so the lookahead succeeds exactly for a multiple of three). -/
def fnwsAux : Char → List Char → List Char
  | _, [] => []
  | prev, c :: cs =>
    let L := digitRunLen (c :: cs)
    if isWordChar prev && (L % 3 == 0) && (L != 0) then
      ' ' :: c :: fnwsAux c cs
    else
      c :: fnwsAux c cs

/-- Space grouping — `formatNumberWithSpaces` (ux-improvements.js:52-54):
insert a space every three digits from the right.  No insertion can occur at position 0
(the start of the string is a word boundary whenever a digit follows), so
the head character is emitted unchanged. -/
def formatNumberWithSpaces (s : String) : String :=
  match s.data with
  | [] => ""
  | c :: cs => String.mk (c :: fnwsAux c cs)

/-- Blur formatting of evaluation fields — `formatEvaluation`
(ux-improvements.js:57-62): strip non-digits; if
the result is non-empty (truthy) overwrite the field value with the
space-grouped form, otherwise leave the field value untouched. -/
def formatEvaluation (v : String) : String :=
  let s := stripNonDigits v
  if s = "" then v else formatNumberWithSpaces s

/-- State of a form input element: its string value, whether the
`required` attribute is present, the browser-computed
`validity.valid` flag, whether `classList` contains `input-error`,
whether an adjacent `.error-message` div exists, and the `show` class
and text content of that div. -/
structure Elem where
  value : String
  required : Bool
  validityValid : Bool
  hasInputError : Bool
  hasErrorDiv : Bool
  errorShown : Bool
  errorText : String
deriving DecidableEq, Repr

/-- Field validation — `validateField(field, errorMessage)`
(ux-improvements.js:4-21):
returns `field.validity.valid`; when invalid it adds the `input-error`
class and, if an error div exists, sets its text and shows it; when
valid it removes the class and hides the div. -/
def validateField (f : Elem) (errorMessage : String) : Bool × Elem :=
  if !f.validityValid then
    (false,
      { f with
        hasInputError := true
        errorShown := if f.hasErrorDiv then true else f.errorShown
        errorText := if f.hasErrorDiv then errorMessage else f.errorText })
  else
    (true,
      { f with
        hasInputError := false
        errorShown := if f.hasErrorDiv then false else f.errorShown })

/-- Error clearing — `clearFieldError(field)`
(ux-improvements.js:23-40): always remove
the `input-error` class; if an error div is found (next sibling or
within the parent container), remove its `show` class. -/
def clearFieldError (f : Elem) : Elem :=
  { f with
    hasInputError := false
    errorShown := if f.hasErrorDiv then false else f.errorShown }

/-- The document-level `input` listener (ux-improvements.js:129-135):
for an `input`/`select`/`textarea` target, clear its error display. -/
def handleInputEvent (isFormControl : Bool) (f : Elem) : Elem :=
  if isFormControl then clearFieldError f else f

/-- The document-level `focus` listener (ux-improvements.js:137-143):
identical to the `input` listener. -/
def handleFocusEvent (isFormControl : Bool) (f : Elem) : Elem :=
  if isFormControl then clearFieldError f else f

/-- Ticket validation — `validateTicket(input)`
(ux-improvements.js:43-49): strip non-digits
from the value; if the digit count differs from 11 call `validateField`
with the message "Введите ровно 11 цифр", otherwise with the empty
message.  Either way the returned boolean is the result of
`validateField`, i.e. the `validity.valid` of the element. -/
def validateTicket (f : Elem) : Bool × Elem :=
  let v := stripNonDigits f.value
  if v.length ≠ 11 then
    validateField f ("Введите ровно 11 цифр")
  else
    validateField f ("")

/-- Whether a string is a full match for the regex `[0-9]{11}`. -/
def ticketPattern (s : String) : Bool :=
  s.length == 11 && s.data.all Char.isDigit

/-- Browser constraint validity of the ticket element once the
`DOMContentLoaded` handler has set the pattern attribute to `[0-9]{11}`
(ux-improvements.js:164): per HTML constraint validation, an empty value
only violates `required`, and a non-empty value must fully match the
pattern. -/
def ticketValidity (required : Bool) (v : String) : Bool :=
  if v = "" then !required else ticketPattern v

/-- State of one `.item-card` sub-record as read by `validateForm`
(ux-improvements.js:102-118): the `.desc` and `.eval` input values.
(`validateField` also toggles their error display; only the values
matter for the return value and the focus target.) -/
structure ItemCard where
  descValue : String
  evalValue : String
deriving DecidableEq, Repr

/-- The whole form as read by `validateForm`: the `#department`,
`#issue` and `#ticket` elements plus the dynamic `.item-card` list in
document order. -/
structure FormState where
  department : Elem
  issue : Elem
  ticket : Elem
  items : List ItemCard
deriving DecidableEq, Repr

/-- A reference to a field of the form, in document order:
`#department`, `#issue`, `#ticket`, then the `.desc` and `.eval` inputs
of each `.item-card` in order. -/
inductive FieldRef where
  | dept
  | issue
  | ticket
  | itemDescr (i : Nat)
  | itemValue (i : Nat)
deriving DecidableEq, Repr

/-- The `items.forEach` loop of `validateForm`
(ux-improvements.js:102-118), started at card index `k`: each card whose
description is empty contributes its `.desc` field to `errors` (and
clears `isValid`), likewise for an empty evaluation. -/
def checkItems : List ItemCard → Nat → Bool × List FieldRef
  | [], _ => (true, [])
  | it :: rest, k =>
    let dOk := it.descValue ≠ ""
    let eOk := it.evalValue ≠ ""
    let r := checkItems rest (k + 1)
    (dOk && eOk && r.1,
      (if dOk then [] else [FieldRef.itemDescr k]) ++
      (if eOk then [] else [FieldRef.itemValue k]) ++ r.2)

/-- Submit validation — `validateForm()`
(ux-improvements.js:74-126), as the pair
(returned `isValid`, the `errors` array in push order): department and
issue must be non-empty, the ticket must pass `validateTicket`, and
each item card needs a non-empty description and evaluation. -/
def validateForm (form : FormState) : Bool × List FieldRef :=
  let deptOk := form.department.value ≠ ""
  let issueOk := form.issue.value ≠ ""
  let ticketOk := (validateTicket form.ticket).1
  let r := checkItems form.items 0
  (deptOk && issueOk && ticketOk && r.1,
    (if deptOk then [] else [FieldRef.dept]) ++
    (if issueOk then [] else [FieldRef.issue]) ++
    (if ticketOk then [] else [FieldRef.ticket]) ++ r.2)

/-- The failure branch of `validateForm` (ux-improvements.js:120-123):
when `isValid` is false and `errors` is non-empty, `errors[0]` is
scrolled into view and focused.  Returns the focused field, if any. -/
def validateFormFocus (form : FormState) : Option FieldRef :=
  let r := validateForm form
  if !r.1 && !r.2.isEmpty then r.2.head? else none

/-- Description and evaluation references of `n` consecutive item
cards starting at index `k`, in document order. -/
def docItemFields : Nat → Nat → List FieldRef
  | _, 0 => []
  | k, n + 1 => FieldRef.itemDescr k :: FieldRef.itemValue k ::
      docItemFields (k + 1) n

/-- The fields of a form in document order. -/
def docFields (form : FormState) : List FieldRef :=
  FieldRef.dept :: FieldRef.issue :: FieldRef.ticket ::
    docItemFields 0 form.items.length

/-- Which fields `validateForm` treats as invalid: an empty department,
an empty issue, a ticket failing `validateTicket`, an empty item
description or evaluation. -/
def fieldInvalid (form : FormState) : FieldRef → Bool
  | FieldRef.dept => form.department.value == ""
  | FieldRef.issue => form.issue.value == ""
  | FieldRef.ticket => !(validateTicket form.ticket).1
  | FieldRef.itemDescr i =>
    match form.items[i]? with
    | some it => it.descValue == ""
    | none => false
  | FieldRef.itemValue i =>
    match form.items[i]? with
    | some it => it.evalValue == ""
    | none => false

/-- Modelled from the spec: "a non-empty numeric evaluation" — the
evaluation value consists of at least one character, all digits.  (The
source-level `validateForm` has no such check; this definition only
states the requirement of the spec, for comparison.) -/
def specNumericEvaluation (s : String) : Bool :=
  !(s == "") && s.data.all Char.isDigit

/-- Example element: a field currently marked invalid, with the error
class set and the message shown. -/
def exMarkedElem : Elem :=
  { value := "12", required := true, validityValid := false
    hasInputError := true, hasErrorDiv := true, errorShown := true
    errorText := "Введите ровно 11 цифр" }

/-- Example ticket element holding a formatted phone number whose
digits number exactly 11, with the constraint validity the
initialization-set pattern gives that raw value. -/
def exTicketPlusElem : Elem :=
  { value := "+7 (911) 234-56-78", required := false
    validityValid := ticketValidity false ("+7 (911) 234-56-78")
    hasInputError := false, hasErrorDiv := true, errorShown := false
    errorText := "" }

/-- Example required ticket element holding only 5 digits. -/
def exTicketShortElem : Elem :=
  { value := "12345", required := true
    validityValid := ticketValidity true ("12345")
    hasInputError := false, hasErrorDiv := true, errorShown := false
    errorText := "" }

/-- Example form for the C8 counterexample: department, issue and an
11-digit ticket are filled in; the single item has a description and
the non-numeric evaluation string abc. -/
def exNumericForm : FormState :=
  { department :=
      { value := "IT", required := true, validityValid := true
        hasInputError := false, hasErrorDiv := true, errorShown := false
        errorText := "" }
    issue :=
      { value := "42", required := true, validityValid := true
        hasInputError := false, hasErrorDiv := true, errorShown := false
        errorText := "" }
    ticket :=
      { value := "12345678901", required := true
        validityValid := ticketValidity true ("12345678901")
        hasInputError := false, hasErrorDiv := true, errorShown := false
        errorText := "" }
    items := [{ descValue := "chair", evalValue := "abc" }] }

/-- Example form for the C8 witness: empty department, everything else
filled, and an item with an empty description — two invalid fields, the
department first in document order. -/
def exFocusForm : FormState :=
  { department :=
      { value := "", required := true, validityValid := false
        hasInputError := false, hasErrorDiv := true, errorShown := false
        errorText := "" }
    issue :=
      { value := "42", required := true, validityValid := true
        hasInputError := false, hasErrorDiv := true, errorShown := false
        errorText := "" }
    ticket :=
      { value := "12345678901", required := true
        validityValid := ticketValidity true ("12345678901")
        hasInputError := false, hasErrorDiv := true, errorShown := false
        errorText := "" }
    items := [{ descValue := "", evalValue := "500" }] }

end UX

namespace SW

/-- Version tag — `const VERSION` (service-worker.js:2), the string
2322. -/
def VERSION : String := "2322"

/-- Versioned cache name — `CACHE_NAME` (service-worker.js:3): the
prefix sklad-bot- followed by the version tag. -/
def CACHE_NAME : String := "sklad-bot-" ++ VERSION

/-- Base path — `BASE_PATH` (service-worker.js:5): the directory path
of the worker, given a trailing slash if missing. -/
def basePathOf (swPath : String) : String :=
  if swPath.endsWith ("/") then swPath else swPath ++ "/"

/-- Precache list — `urlsToCache` (service-worker.js:6-9): the root
path and `index.html` under it. -/
def urlsToCache (basePath : String) : List String :=
  [basePath, basePath ++ "index.html"]

/-- The entries of one cache: an association list URL → response.
Responses are kept abstract (type parameter `ρ`). -/
abbrev CacheEntries (ρ : Type) : Type := List (String × ρ)

/-- The Cache Storage: named caches in enumeration order. -/
abbrev CacheState (ρ : Type) : Type := List (String × CacheEntries ρ)

/-- Store of a response for a URL (`Cache.put` semantics), overwriting
an existing entry for the same URL. -/
def putEntry {ρ : Type} : CacheEntries ρ → String → ρ → CacheEntries ρ
  | [], u, r => [(u, r)]
  | e :: rest, u, r =>
    if e.1 = u then (u, r) :: rest else e :: putEntry rest u r

/-- Commit a list of fetched responses into the entries of a cache. -/
def commitAll {ρ : Type} : CacheEntries ρ → List (String × ρ) → CacheEntries ρ
  | es, [] => es
  | es, (u, r) :: rest => commitAll (putEntry es u r) rest

/-- Batch precache — `cache.addAll(urls)`
(service-worker.js:15): fetch every URL; if any
fetch fails the whole operation rejects and, per the Cache batch
semantics the code relies on, nothing is committed (the result is
`none`).  `fetchRes` is the network oracle during install. -/
def addAll {ρ : Type} (fetchRes : String → Option ρ) :
    List String → Option (List (String × ρ))
  | [] => some []
  | u :: rest =>
    match fetchRes u, addAll fetchRes rest with
    | some r, some es => some ((u, r) :: es)
    | _, _ => none

/-- Replace (or create) the cache named `n`, committing the fetched
responses `fes` into it — `caches.open(CACHE_NAME).then(cache =>
cache.addAll(urlsToCache))` after a successful `addAll`. -/
def updateCache {ρ : Type} : CacheState ρ → String → List (String × ρ) → CacheState ρ
  | [], n, fes => [(n, commitAll [] fes)]
  | c :: rest, n, fes =>
    if c.1 = n then (n, commitAll c.2 fes) :: rest
    else c :: updateCache rest n fes

/-- Overall service-worker-visible state: the Cache Storage plus the
cache name of the currently active worker version, if any. -/
structure SWState (ρ : Type) where
  caches : CacheState ρ
  activeName : Option String
deriving DecidableEq, Repr

/-- The `install` listener (service-worker.js:12-18):
`event.waitUntil(caches.open(CACHE_NAME).then(cache =>
cache.addAll(urlsToCache)))`.  If every precache fetch succeeds the
versioned cache is (re)written and install succeeds (`true`); if any
fetch fails the `waitUntil` promise rejects, install fails (`false`)
and — `addAll` being all-or-nothing — the Cache Storage and the active
version are unchanged. -/
def installStep {ρ : Type} (fetchRes : String → Option ρ) (basePath : String)
    (st : SWState ρ) : SWState ρ × Bool :=
  match addAll fetchRes (urlsToCache basePath) with
  | some fes => ({ st with caches := updateCache st.caches CACHE_NAME fes }, true)
  | none => (st, false)

/-- The `activate` listener (service-worker.js:21-34): enumerate
`caches.keys()` and delete every cache whose name differs from
`CACHE_NAME`, then `clients.claim()` makes the new version the active
one. -/
def activateStep {ρ : Type} (st : SWState ρ) : SWState ρ :=
  { caches := st.caches.filter (fun c => c.1 == CACHE_NAME)
    activeName := some CACHE_NAME }

/-- Service-worker lifecycle for one deployment: the new worker
installs, and only a successfully installed worker reaches the
activate step (a rejected install `waitUntil` makes the browser discard
the new version, leaving the previous one in service). -/
def installAndActivate {ρ : Type} (fetchRes : String → Option ρ)
    (basePath : String) (st : SWState ρ) : SWState ρ :=
  let r := installStep fetchRes basePath st
  if r.2 then activateStep r.1 else r.1

/-- First match for a URL in a list of cache entries. -/
def entryLookup {ρ : Type} : CacheEntries ρ → String → Option ρ
  | [], _ => none
  | e :: rest, u => if e.1 = u then some e.2 else entryLookup rest u

/-- Cross-cache lookup — `caches.match(request)`
(service-worker.js:39): search every cache
in order for a response to the request. -/
def cachesMatch {ρ : Type} : CacheState ρ → String → Option ρ
  | [], _ => none
  | c :: rest, u =>
    match entryLookup c.2 u with
    | some r => some r
    | none => cachesMatch rest u

/-- The `fetch` listener (service-worker.js:37-47): respond with the
cache match when there is one, otherwise with the network response
(`network` is the runtime network oracle; `none` models a failed
fetch).  The Cache Storage is returned unchanged — the handler never
writes to it. -/
def handleFetch {ρ : Type} (cs : CacheState ρ) (network : String → Option ρ)
    (u : String) : Option ρ × CacheState ρ :=
  match cachesMatch cs u with
  | some r => (some r, cs)
  | none => (network u, cs)

/-- An HTTP response as `sendReport` sees it: status code and (JSON)
body text. -/
structure HttpResponse where
  status : Nat
  body : String
deriving DecidableEq, Repr

/-- Success predicate of `Response.ok`: status in the inclusive range
200–299. -/
def respOk (r : HttpResponse) : Bool :=
  decide (200 ≤ r.status) && decide (r.status ≤ 299)

/-- Delivery attempt — `sendReport(data)` (service-worker.js:74-86):
POST to `/generate`;
a transport-level failure (`transport = none`) rejects with the fetch
error, a non-ok status throws the error `Failed to send report`, and
otherwise the JSON body is returned. -/
def sendReport (transport : Option HttpResponse) : Except String String :=
  match transport with
  | none => Except.error ("NetworkError when attempting to fetch resource")
  | some r =>
    if !respOk r then Except.error ("Failed to send report")
    else Except.ok r.body

/-- The `for (const item of pending)` loop of `syncPendingReports`
(service-worker.js:62-71), processing the snapshot `pending` of the
store sequentially against the store.  `deliver` says whether
`sendReport(item.data)` succeeds for a payload.  On success the entry
is deleted from the store by id; on failure the error is logged and the
loop continues.  Returns the final store and the trace of entries a
delivery was attempted for, in order. -/
def syncLoop {α : Type} (deliver : α → Bool) :
    List (Nat × α) → List (Nat × α) → List (Nat × α) × List (Nat × α)
  | [], store => (store, [])
  | e :: rest, store =>
    if deliver e.2 then
      let r := syncLoop deliver rest (store.filter (fun x => x.1 != e.1))
      (r.1, e :: r.2)
    else
      let r := syncLoop deliver rest store
      (r.1, e :: r.2)

/-- One sync pass — `syncPendingReports()` (service-worker.js:56-72):
take the `getAll()` snapshot of the pending store, then run the
delivery loop over it. -/
def syncPendingReports {α : Type} (deliver : α → Bool)
    (store : List (Nat × α)) : List (Nat × α) × List (Nat × α) :=
  syncLoop deliver store store

/-- The ids deleted by the loop over a snapshot: the ids of the
successfully delivered entries. -/
def deliveredIds {α : Type} (deliver : α → Bool)
    (pending : List (Nat × α)) : List Nat :=
  (pending.filter (fun e => deliver e.2)).map Prod.fst

/-- Example network oracle with the network entirely down. -/
def noNet : String → Option Nat := fun _ => none

/-- Example worker state with a stale versioned cache active. -/
def exOldState : SWState Nat :=
  { caches := [("sklad-bot-2321", [("/app/", 1)])]
    activeName := some ("sklad-bot-2321") }

/-- Example entries of the current versioned cache after a rollover
install. -/
def exEntriesNew : CacheEntries Nat :=
  [("/", 10), ("/index.html", 20)]

/-- Example Cache Storage right after installing the current version
over a stale one: both snapshots present. -/
def exRollState : SWState Nat :=
  { caches := [("sklad-bot-2321", [("/", 1), ("/index.html", 2)]),
               ("sklad-bot-2322", exEntriesNew)]
    activeName := some ("sklad-bot-2321") }

end SW

namespace UX

/-- Filtering the output of `fnwsAux` for digits gives back the digits
of the processed suffix: the formatter only inserts spaces. -/
theorem fnwsAux_filter_digit (prev : Char) (cs : List Char) :
    (fnwsAux prev cs).filter Char.isDigit = cs.filter Char.isDigit := by
  induction cs generalizing prev with
  | nil => rfl
  | cons c cs ih =>
    simp only [fnwsAux]
    split
    · have hsp : (' ').isDigit = false := by decide
      simp only [List.filter_cons, hsp, ih]
      simp
    · simp only [List.filter_cons]
      rw [ih]

/-- Re-stripping the formatted output gives the stripped input: the
formatter only inserts spaces. -/
theorem stripNonDigits_formatNumberWithSpaces (s : String) :
    stripNonDigits (formatNumberWithSpaces s) = stripNonDigits s := by
  cases s with
  | mk data =>
    cases data with
    | nil => rfl
    | cons c cs =>
      simp only [formatNumberWithSpaces, stripNonDigits, List.filter_cons,
        fnwsAux_filter_digit]

/-- Stripping non-digits from a digit-only string is the identity. -/
theorem stripNonDigits_of_all_digits (s : String)
    (h : s.data.all Char.isDigit = true) : stripNonDigits s = s := by
  cases s with
  | mk data =>
    simp only [stripNonDigits]
    rw [List.filter_eq_self.mpr]
    intro a ha
    exact (List.all_eq_true.mp h) a ha

/-- C3: `formatNumberWithSpaces` groups digits with a space every three
digits from the right — `"15000"` becomes `"15 000"`, `"1000000"`
becomes `"1 000 000"` — and for every digit-only string, stripping the
formatted output and formatting again reproduces the same result. -/
theorem formatNumberWithSpaces_grouping :
    formatNumberWithSpaces ("15000") = "15 000"
    ∧ formatNumberWithSpaces ("1000000") = "1 000 000"
    ∧ ∀ s : String, s.data.all Char.isDigit = true →
        formatNumberWithSpaces (stripNonDigits (formatNumberWithSpaces s))
          = formatNumberWithSpaces s := by
  refine ⟨by decide, by decide, fun s h => ?_⟩
  rw [stripNonDigits_formatNumberWithSpaces, stripNonDigits_of_all_digits s h]

/-- C3 witness: the idempotence property instantiated at `"15000"`. -/
theorem formatNumberWithSpaces_grouping_witness :
    ("15000".data.all Char.isDigit = true)
    ∧ formatNumberWithSpaces (stripNonDigits (formatNumberWithSpaces ("15000")))
        = formatNumberWithSpaces ("15000") :=
  ⟨by decide, formatNumberWithSpaces_grouping.2.2 ("15000") (by decide)⟩

/-- C10: when the field value contains no digit at all (stripping
yields the empty string) `formatEvaluation` leaves the value untouched;
when at least one digit is present the value is rewritten to the
space-grouped digits. -/
theorem formatEvaluation_digitless_unchanged (v : String) :
    (stripNonDigits v = "" → formatEvaluation v = v)
    ∧ (stripNonDigits v ≠ "" →
        formatEvaluation v = formatNumberWithSpaces (stripNonDigits v)) := by
  constructor
  · intro h
    simp [formatEvaluation, h]
  · intro h
    simp [formatEvaluation, h]

/-- C10 witness: `"руб."` has no digits and is left unchanged, while
`"15000 rub"` has digits and is reformatted. -/
theorem formatEvaluation_digitless_unchanged_witness :
    (stripNonDigits ("руб.") = "" ∧ formatEvaluation ("руб.") = "руб.")
    ∧ (stripNonDigits ("15000 rub") ≠ ""
        ∧ formatEvaluation ("15000 rub")
            = formatNumberWithSpaces (stripNonDigits ("15000 rub"))) :=
  ⟨⟨by decide, (formatEvaluation_digitless_unchanged ("руб.")).1 (by decide)⟩,
   ⟨by decide, (formatEvaluation_digitless_unchanged ("15000 rub")).2 (by decide)⟩⟩

/-- C9: an `input` or `focus` event on a form control clears the
`input-error` class and hides the error message, whatever the current
value and validity are; the clearing event never re-shows an error
(the display can only reappear through a later validation pass). -/
theorem input_focus_clear_error (f : Elem) :
    (handleInputEvent true f).hasInputError = false
    ∧ (handleFocusEvent true f).hasInputError = false
    ∧ (f.hasErrorDiv = true → (handleInputEvent true f).errorShown = false)
    ∧ (f.hasErrorDiv = true → (handleFocusEvent true f).errorShown = false)
    ∧ (handleInputEvent true f).value = f.value
    ∧ (handleFocusEvent true f).value = f.value
    ∧ ((handleInputEvent true f).errorShown = true → f.errorShown = true)
    ∧ ((handleInputEvent true f).hasInputError = true → f.hasInputError = true) := by
  cases h : f.hasErrorDiv <;>
    simp [handleInputEvent, handleFocusEvent, clearFieldError, h]

/-- C9 witness: a field currently marked invalid (error class and
message shown) is fully cleared by an `input` event and by a `focus`
event. -/
theorem input_focus_clear_error_witness :
    exMarkedElem.hasErrorDiv = true
    ∧ (handleInputEvent true exMarkedElem).hasInputError = false
    ∧ (handleInputEvent true exMarkedElem).errorShown = false
    ∧ (handleFocusEvent true exMarkedElem).errorShown = false :=
  ⟨rfl,
   (input_focus_clear_error exMarkedElem).1,
   (input_focus_clear_error exMarkedElem).2.2.1 rfl,
   (input_focus_clear_error exMarkedElem).2.2.2.1 rfl⟩

/-- Lemma stating that `validateField` returns exactly the
`validity.valid` of the element. -/
theorem validateField_fst (f : Elem) (msg : String) :
    (validateField f msg).1 = f.validityValid := by
  cases h : f.validityValid <;> simp [validateField, h]

/-- C2 counterexample: the formatted phone value of `exTicketPlusElem`
strips to exactly 11 digits, yet `validateTicket` returns `false` for
it (the constraint validity of the element under the pattern
`[0-9]{11}` set at initialization is false, and `validateField`
returns that validity). -/
theorem validateTicket_strip_counterexample :
    (stripNonDigits exTicketPlusElem.value).length = 11
    ∧ (validateTicket exTicketPlusElem).1 = false := by
  constructor
  · decide
  · decide

/-- C2 amended: `validateTicket` strips non-digits only to select the
message — a stripped digit count other than 11 selects
"Введите ровно 11 цифр", which is displayed exactly when the element is
constraint-invalid; the returned boolean is the constraint validity of
the element (under the initialization-set pattern `[0-9]{11}`: the raw
value must itself be exactly 11 digits, or be empty on a non-required
field), so a raw 11-digit value is reported valid. -/
theorem validateTicket_validity (f : Elem)
    (h : f.validityValid = ticketValidity f.required f.value) :
    (validateTicket f).1 = ticketValidity f.required f.value
    ∧ (ticketPattern f.value = true → (validateTicket f).1 = true)
    ∧ ((stripNonDigits f.value).length ≠ 11 → f.validityValid = false →
        f.hasErrorDiv = true →
        (validateTicket f).2.errorText = "Введите ровно 11 цифр"
        ∧ (validateTicket f).2.errorShown = true
        ∧ (validateTicket f).2.hasInputError = true) := by
  have hfst : (validateTicket f).1 = f.validityValid := by
    simp only [validateTicket]
    split <;> exact validateField_fst f _
  refine ⟨h ▸ hfst, ?_, ?_⟩
  · intro hp
    rw [hfst, h]
    unfold ticketValidity
    split
    · rename_i hv
      rw [hv] at hp
      exact absurd hp (by decide)
    · exact hp
  · intro hlen hval hdiv
    simp only [validateTicket]
    rw [if_pos hlen]
    simp [validateField, hval, hdiv]

/-- C2 amended witness: `"12345"` strips to 5 digits on a required
field: `validateTicket` returns false, marks the field and shows the
message. -/
theorem validateTicket_validity_witness :
    (exTicketShortElem.validityValid
        = ticketValidity exTicketShortElem.required exTicketShortElem.value
      ∧ (stripNonDigits exTicketShortElem.value).length ≠ 11)
    ∧ ((validateTicket exTicketShortElem).2.errorText = "Введите ровно 11 цифр"
        ∧ (validateTicket exTicketShortElem).2.errorShown = true
        ∧ (validateTicket exTicketShortElem).2.hasInputError = true) :=
  ⟨⟨rfl, by decide⟩,
   (validateTicket_validity exTicketShortElem rfl).2.2
      (by decide) (by decide) rfl⟩

/-- The item loop reports success exactly when every card has a
non-empty description and a non-empty evaluation. -/
theorem checkItems_true_iff (items : List ItemCard) : ∀ k : Nat,
    (checkItems items k).1 = true ↔
      ∀ it ∈ items, it.descValue ≠ "" ∧ it.evalValue ≠ "" := by
  induction items with
  | nil => intro k; simp [checkItems]
  | cons it rest ih =>
    intro k
    simp only [checkItems, Bool.and_eq_true, decide_eq_true_eq, ih (k + 1),
      List.mem_cons, and_assoc]
    constructor
    · rintro ⟨hd, he, hr⟩ x hx
      rcases hx with rfl | hx
      · exact ⟨hd, he⟩
      · exact hr x hx
    · intro h
      exact ⟨(h it (Or.inl rfl)).1, (h it (Or.inl rfl)).2,
        fun x hx => h x (Or.inr hx)⟩

/-- A successful item loop pushes no error references. -/
theorem checkItems_nil_of_true (items : List ItemCard) : ∀ k : Nat,
    (checkItems items k).1 = true → (checkItems items k).2 = [] := by
  induction items with
  | nil => intro k _; rfl
  | cons it rest ih =>
    intro k h
    simp only [checkItems, Bool.and_eq_true, decide_eq_true_eq, and_assoc] at h
    obtain ⟨hd, he, hr⟩ := h
    simp [checkItems, hd, he, ih (k + 1) hr]

/-- The error references pushed by the item loop over a suffix of the
cards of the form are exactly the invalid item fields among the
corresponding document-order references. -/
theorem checkItems_errs (form : FormState) :
    ∀ (suffix : List ItemCard) (k : Nat), form.items.drop k = suffix →
      (checkItems suffix k).2
        = (docItemFields k suffix.length).filter (fieldInvalid form) := by
  intro suffix
  induction suffix with
  | nil => intro k _; rfl
  | cons it rest ih =>
    intro k h
    have hk : form.items[k]? = some it := by
      have h0 := List.getElem?_drop form.items k 0
      rw [h] at h0
      simpa using h0.symm
    have hrest : form.items.drop (k + 1) = rest := by
      have h1 : (form.items.drop k).drop 1 = rest := by rw [h]; rfl
      rwa [List.drop_drop] at h1
    simp only [checkItems, List.length_cons, docItemFields]
    rw [ih (k + 1) hrest, List.filter_cons, List.filter_cons]
    by_cases h1 : it.descValue = "" <;> by_cases h2 : it.evalValue = "" <;>
      simp [fieldInvalid, hk, h1, h2]

/-- Aggregation lemma: `validateForm` succeeds exactly when department
and issue are non-empty, the ticket passes `validateTicket`, and every
item card has a non-empty description and evaluation. -/
theorem validateForm_true_iff (form : FormState) :
    (validateForm form).1 = true ↔
      (form.department.value ≠ "" ∧ form.issue.value ≠ ""
        ∧ (validateTicket form.ticket).1 = true
        ∧ ∀ it ∈ form.items, it.descValue ≠ "" ∧ it.evalValue ≠ "") := by
  simp only [validateForm, Bool.and_eq_true, decide_eq_true_eq,
    checkItems_true_iff form.items 0]
  tauto

/-- A successful `validateForm` pushes no error references. -/
theorem validateForm_nil_of_true (form : FormState)
    (h : (validateForm form).1 = true) : (validateForm form).2 = [] := by
  obtain ⟨hd, hi, ht, hall⟩ := (validateForm_true_iff form).mp h
  have hck : (checkItems form.items 0).1 = true :=
    (checkItems_true_iff form.items 0).mpr hall
  simp [validateForm, hd, hi, ht, checkItems_nil_of_true form.items 0 hck]

/-- The `errors` array of `validateForm` holds exactly the invalid
fields, in document order. -/
theorem validateForm_errs (form : FormState) :
    (validateForm form).2 = (docFields form).filter (fieldInvalid form) := by
  have hitems := checkItems_errs form form.items 0 (by simp)
  simp only [validateForm, docFields]
  rw [List.filter_cons, List.filter_cons, List.filter_cons, ← hitems]
  by_cases hd : form.department.value = "" <;>
    by_cases hi : form.issue.value = "" <;>
      by_cases ht : (validateTicket form.ticket).1 = true <;>
        simp [fieldInvalid, hd, hi, ht]

/-- C8 counterexample: `validateForm` accepts a form whose item
evaluation (the string abc) is not numeric — the source checks the
evaluation only for non-emptiness. -/
theorem validateForm_numeric_counterexample :
    (validateForm exNumericForm).1 = true
    ∧ specNumericEvaluation ("abc") = false := by
  constructor
  · decide
  · decide

/-- C8 amended: `validateForm` returns true iff department and issue
are non-empty, the ticket passes `validateTicket`, and every item has a
non-empty description and a non-empty evaluation (no numeric check);
the errors array holds exactly the invalid fields in document order,
and on failure the first of them is scrolled into view and focused. -/
theorem validateForm_aggregate (form : FormState) :
    ((validateForm form).1 = true ↔
      (form.department.value ≠ "" ∧ form.issue.value ≠ ""
        ∧ (validateTicket form.ticket).1 = true
        ∧ ∀ it ∈ form.items, it.descValue ≠ "" ∧ it.evalValue ≠ ""))
    ∧ (validateForm form).2 = (docFields form).filter (fieldInvalid form)
    ∧ validateFormFocus form = (docFields form).find? (fieldInvalid form) := by
  refine ⟨validateForm_true_iff form, validateForm_errs form, ?_⟩
  rw [← List.filter_head? (fieldInvalid form) (docFields form),
    ← validateForm_errs form]
  simp only [validateFormFocus]
  cases he : (validateForm form).2 with
  | nil => simp [he]
  | cons e tl =>
    have hf : (validateForm form).1 = false := by
      cases hb : (validateForm form).1
      · rfl
      · rw [validateForm_nil_of_true form hb] at he
        cases he
    simp [he, hf]

/-- C8 witness: on the witness form the focused field is the
department — the first invalid field in document order. -/
theorem validateForm_aggregate_witness :
    validateFormFocus exFocusForm = some FieldRef.dept
    ∧ (validateForm exFocusForm).1 = false := by
  have h := (validateForm_aggregate exFocusForm).2.2
  constructor
  · rw [h]; decide
  · decide

end UX

namespace SW

/-- The delivery loop attempts every entry of the snapshot exactly
once, in order. -/
theorem syncLoop_trace {α : Type} (deliver : α → Bool) :
    ∀ (pending store : List (Nat × α)),
      (syncLoop deliver pending store).2 = pending := by
  intro pending
  induction pending with
  | nil => intro store; rfl
  | cons e rest ih =>
    intro store
    simp only [syncLoop]
    split <;> simp [ih]

/-- After the loop, the store holds exactly the entries whose id was
not successfully delivered from the snapshot. -/
theorem syncLoop_store {α : Type} (deliver : α → Bool) :
    ∀ (pending store : List (Nat × α)),
      (syncLoop deliver pending store).1
        = store.filter
            (fun x => !decide (x.1 ∈ deliveredIds deliver pending)) := by
  intro pending
  induction pending with
  | nil =>
    intro store
    simp [syncLoop, deliveredIds]
  | cons e rest ih =>
    intro store
    simp only [syncLoop]
    by_cases hd : deliver e.2
    · rw [if_pos hd, ih, List.filter_filter]
      apply List.filter_congr
      intro x _
      simp only [deliveredIds, List.filter_cons, hd, if_pos,
        List.map_cons, List.mem_cons]
      by_cases h1 : x.1 = e.1 <;>
        by_cases h2 : x.1 ∈ (rest.filter (fun a => deliver a.2)).map Prod.fst <;>
          simp [h1, h2]
    · rw [if_neg hd, ih]
      apply List.filter_congr
      intro x _
      simp [deliveredIds, List.filter_cons, hd]

/-- C1: one sync trigger attempts delivery of every queued entry
exactly once, sequentially and in order; successful deliveries remove
their entry, failed ones leave it in place and do not stop the batch:
given distinct ids, the resulting store holds exactly the entries whose
delivery failed. -/
theorem syncPendingReports_batch {α : Type} (deliver : α → Bool)
    (store : List (Nat × α)) (h : (store.map Prod.fst).Nodup) :
    (syncPendingReports deliver store).2 = store
    ∧ (syncPendingReports deliver store).1
        = store.filter (fun e => !deliver e.2) := by
  refine ⟨syncLoop_trace deliver store store, ?_⟩
  rw [syncPendingReports, syncLoop_store]
  apply List.filter_congr
  intro x hx
  by_cases hdel : deliver x.2
  · have hmem : x.1 ∈ deliveredIds deliver store :=
      List.mem_map.mpr ⟨x, List.mem_filter.mpr ⟨hx, by simpa using hdel⟩, rfl⟩
    simp [hmem, hdel]
  · have hnmem : x.1 ∉ deliveredIds deliver store := by
      intro hmem
      obtain ⟨y, hy, hyx⟩ := List.mem_map.mp hmem
      have hy' := List.mem_filter.mp hy
      have hxy : y = x := List.inj_on_of_nodup_map h hy'.1 hx hyx
      rw [hxy] at hy'
      exact hdel (by simpa using hy'.2)
    simp [hnmem, hdel]

/-- C1 witness: three queued entries with ids 1, 2, 3 where delivery of
the payload of entry 2 fails — after the sync pass entries 1 and 3 are
gone, entry 2 remains, and all three were attempted in order. -/
theorem syncPendingReports_batch_witness :
    (([(1, 10), (2, 20), (3, 30)] : List (Nat × Nat)).map Prod.fst).Nodup
    ∧ (syncPendingReports (fun d => d != 20) [(1, 10), (2, 20), (3, 30)]).1
        = [(2, 20)]
    ∧ (syncPendingReports (fun d => d != 20) [(1, 10), (2, 20), (3, 30)]).2
        = [(1, 10), (2, 20), (3, 30)] := by
  have h := syncPendingReports_batch (fun d => d != 20)
    [(1, 10), (2, 20), (3, 30)] (by decide)
  refine ⟨by decide, ?_, h.1⟩
  rw [h.2]
  decide

/-- If fetching any of the URLs fails, `addAll` rejects as a whole. -/
theorem addAll_none_of_fail {ρ : Type} (fetchRes : String → Option ρ)
    (urls : List String) (u : String) (hu : u ∈ urls)
    (hf : fetchRes u = none) : addAll fetchRes urls = none := by
  induction urls with
  | nil => cases hu
  | cons v rest ih =>
    rcases List.mem_cons.mp hu with h | h
    · subst h
      simp [addAll, hf]
    · rw [addAll, ih h]
      cases fetchRes v <;> rfl

/-- C5: if precaching any listed asset fails during install, the
install step fails outright — the Cache Storage is unchanged (no
partial cache) — and the lifecycle never activates the new version, so
the previously active cache, if any, stays in service. -/
theorem install_failure {ρ : Type} (fetchRes : String → Option ρ)
    (basePath : String) (st : SWState ρ) (u : String)
    (hu : u ∈ urlsToCache basePath) (hf : fetchRes u = none) :
    installStep fetchRes basePath st = (st, false)
    ∧ installAndActivate fetchRes basePath st = st := by
  have h := addAll_none_of_fail fetchRes (urlsToCache basePath) u hu hf
  constructor
  · simp [installStep, h]
  · simp [installAndActivate, installStep, h]

/-- C5 witness: with the network down entirely, installing over a
previously active stale cache changes nothing: the old cache and the
old active version remain. -/
theorem install_failure_witness :
    ("/app/" ∈ urlsToCache ("/app/"))
    ∧ (noNet ("/app/") = none)
    ∧ installAndActivate noNet ("/app/") exOldState = exOldState
    ∧ installStep noNet ("/app/") exOldState = (exOldState, false) :=
  ⟨by decide, rfl,
   (install_failure noNet ("/app/") exOldState ("/app/") (by decide) rfl).2,
   (install_failure noNet ("/app/") exOldState ("/app/") (by decide) rfl).1⟩

/-- With distinct cache names, filtering for a present name yields
exactly that cache. -/
theorem filter_name_unique {ρ : Type} :
    ∀ (cs : CacheState ρ) (n : String) (es : CacheEntries ρ),
      (cs.map Prod.fst).Nodup → (n, es) ∈ cs →
      cs.filter (fun c => c.1 == n) = [(n, es)] := by
  intro cs
  induction cs with
  | nil => intro n es _ hmem; cases hmem
  | cons c rest ih =>
    intro n es hnd hmem
    rw [List.map_cons] at hnd
    have hnd' := List.nodup_cons.mp hnd
    rcases List.mem_cons.mp hmem with h | h
    · subst h
      have hrest : rest.filter (fun c => c.1 == n) = [] := by
        rw [List.filter_eq_nil_iff]
        intro a ha hna
        simp only [beq_iff_eq] at hna
        exact hnd'.1 (hna ▸ List.mem_map.mpr ⟨a, ha, rfl⟩)
      simp [List.filter_cons, hrest]
    · have hcn : c.1 ≠ n := by
        intro hcn
        exact hnd'.1 (hcn ▸ List.mem_map.mpr ⟨(n, es), h, rfl⟩)
      rw [List.filter_cons]
      simp only [beq_iff_eq, hcn, if_false]
      exact ih n es hnd'.2 h

/-- C4: the activate step deletes every cache whose name differs from
the current `CACHE_NAME`; with distinct cache names and the current
cache present, exactly that one snapshot survives, it becomes the
active one, and a fetch for a precached path is served from it. -/
theorem activate_purges_stale {ρ : Type} (cs : CacheState ρ)
    (a : Option String) (es : CacheEntries ρ) (net : String → Option ρ)
    (u : String) (r : ρ) (hnd : (cs.map Prod.fst).Nodup)
    (hmem : (CACHE_NAME, es) ∈ cs) (hl : entryLookup es u = some r) :
    (∀ c ∈ (activateStep (SWState.mk cs a)).caches, c.1 = CACHE_NAME)
    ∧ (activateStep (SWState.mk cs a)).caches = [(CACHE_NAME, es)]
    ∧ (activateStep (SWState.mk cs a)).activeName = some CACHE_NAME
    ∧ (handleFetch (activateStep (SWState.mk cs a)).caches net u).1 = some r := by
  have hfilter : cs.filter (fun c => c.1 == CACHE_NAME) = [(CACHE_NAME, es)] :=
    filter_name_unique cs CACHE_NAME es hnd hmem
  refine ⟨?_, ?_, rfl, ?_⟩
  · intro c hc
    have := List.of_mem_filter hc
    simpa using this
  · simpa [activateStep] using hfilter
  · show (handleFetch (cs.filter (fun c => c.1 == CACHE_NAME)) net u).1 = some r
    rw [hfilter]
    simp [handleFetch, cachesMatch, hl]

/-- C4 witness: rolling over from the stale cache of `exRollState` to
the current version deletes the stale snapshot entirely, and a fetch
for the precached `index.html` is served from the current snapshot. -/
theorem activate_purges_stale_witness :
    ((exRollState.caches.map Prod.fst).Nodup
      ∧ (CACHE_NAME, exEntriesNew) ∈ exRollState.caches)
    ∧ (activateStep exRollState).caches = [(CACHE_NAME, exEntriesNew)]
    ∧ (handleFetch (activateStep exRollState).caches
        noNet ("/index.html")).1 = some 20 := by
  have h := activate_purges_stale exRollState.caches exRollState.activeName
    exEntriesNew noNet ("/index.html") 20 (by decide) (by decide) (by decide)
  exact ⟨⟨by decide, by decide⟩, h.2.1, h.2.2.2⟩

/-- C6: the fetch handler never writes to the Cache Storage; the
response comes from the cache match when one exists and from the
network otherwise — in the active state, where the storage holds just
the versioned cache, that means a lookup in the versioned snapshot
with network fallback. -/
theorem fetch_precache_only {ρ : Type} (cs : CacheState ρ)
    (net : String → Option ρ) (u : String) :
    (handleFetch cs net u).2 = cs
    ∧ (∀ r, cachesMatch cs u = some r → (handleFetch cs net u).1 = some r)
    ∧ (cachesMatch cs u = none → (handleFetch cs net u).1 = net u)
    ∧ (∀ es r, cs = [(CACHE_NAME, es)] → entryLookup es u = some r →
        (handleFetch cs net u).1 = some r)
    ∧ (∀ es, cs = [(CACHE_NAME, es)] → entryLookup es u = none →
        (handleFetch cs net u).1 = net u) := by
  refine ⟨?_, ?_, ?_, ?_, ?_⟩
  · cases hm : cachesMatch cs u <;> simp [handleFetch, hm]
  · intro r hm
    simp [handleFetch, hm]
  · intro hm
    simp [handleFetch, hm]
  · intro es r hcs hl
    subst hcs
    simp [handleFetch, cachesMatch, hl]
  · intro es hcs hl
    subst hcs
    simp [handleFetch, cachesMatch, hl]

/-- C6 witness: with only the versioned cache present, a precached URL
is answered from the cache (and the storage is unchanged), while a
non-precached URL goes to the network. -/
theorem fetch_precache_only_witness :
    (handleFetch [(CACHE_NAME, [("/", 5)])] (fun _ => some 99) "/").1 = some 5
    ∧ (handleFetch [(CACHE_NAME, [("/", 5)])] (fun _ => some 99) "/").2
        = [(CACHE_NAME, [("/", 5)])]
    ∧ (handleFetch [(CACHE_NAME, ([("/", 5)] : CacheEntries Nat))]
        (fun _ => some 99) "/other").1 = some 99 := by
  have h1 := fetch_precache_only [(CACHE_NAME, ([("/", 5)] : CacheEntries Nat))]
    (fun _ => some 99) "/"
  have h2 := fetch_precache_only [(CACHE_NAME, ([("/", 5)] : CacheEntries Nat))]
    (fun _ => some 99) "/other"
  exact ⟨h1.2.2.2.1 [("/", 5)] 5 rfl (by decide),
    h1.1, h2.2.2.2.2 [("/", 5)] rfl (by decide)⟩

/-- C7: `sendReport` succeeds exactly when the transport delivered a
response with an HTTP status in 200–299 (its value being the response
body); it raises exactly on a transport failure or a status outside
that range. -/
theorem sendReport_ok_iff (t : Option HttpResponse) :
    ((∃ b, sendReport t = Except.ok b) ↔
      (∃ r, t = some r ∧ 200 ≤ r.status ∧ r.status ≤ 299))
    ∧ ((∃ e, sendReport t = Except.error e) ↔
      (t = none ∨ ∃ r, t = some r ∧ (r.status < 200 ∨ 299 < r.status)))
    ∧ (∀ r, t = some r → 200 ≤ r.status → r.status ≤ 299 →
        sendReport t = Except.ok r.body) := by
  cases t with
  | none =>
    refine ⟨?_, ?_, ?_⟩
    · simp [sendReport]
    · simp [sendReport]
    · intro r hr; cases hr
  | some r =>
    refine ⟨?_, ?_, ?_⟩
    · by_cases h200 : 200 ≤ r.status <;> by_cases h299 : r.status ≤ 299 <;>
        simp [sendReport, respOk, h200, h299]
    · by_cases h200 : 200 ≤ r.status <;> by_cases h299 : r.status ≤ 299 <;>
        simp [sendReport, respOk, h200, h299] <;> omega
    · intro x hx hx200 hx299
      injection hx with hx
      subst hx
      simp [sendReport, respOk, hx200, hx299]

/-- C7 witness: a 200 response succeeds with its body; a 500 response
and a transport failure raise. -/
theorem sendReport_ok_iff_witness :
    sendReport (some (HttpResponse.mk 200 ("{}"))) = Except.ok ("{}")
    ∧ (∃ e, sendReport (some (HttpResponse.mk 500 ("oops"))) = Except.error e)
    ∧ (∃ e, sendReport (none : Option HttpResponse) = Except.error e) :=
  ⟨(sendReport_ok_iff (some (HttpResponse.mk 200 ("{}")))).2.2
      (HttpResponse.mk 200 ("{}")) rfl (by decide) (by decide),
   (sendReport_ok_iff (some (HttpResponse.mk 500 ("oops")))).2.1.mpr
      (Or.inr ⟨HttpResponse.mk 500 ("oops"), rfl, by decide⟩),
   (sendReport_ok_iff (none : Option HttpResponse)).2.1.mpr (Or.inl rfl)⟩

end SW
